import Mathlib

/-!
Verification development for the MoniMEPs-Program repository.

Python strings are modelled as lists of characters (`Str`); Python
`None`-able values as `Option`; raised exceptions as `Except PyError`.
The network, the language detector and the translation provider are
external collaborators and are modelled as oracle functions passed to
the embedded code.  Definitions mirror the source files
`codes/speech.py` and `codes/voting.py`; the namespaces `speech` and
`voting` follow the two modules.
-/

set_option autoImplicit false

/-- Python `str` as a sequence of characters. -/
abbrev Str := List Char

/-- Conversion from Lean string literals to the `Str` model. -/
def str (s : String) : Str := s.toList

/-- The characters removed by Python `str.strip()` (ASCII whitespace). -/
def isPySpace (c : Char) : Bool :=
  c == ' ' || c == '\t' || c == '\n' || c == '\r' || c == '\x0b' || c == '\x0c'

/-- Python `str.lstrip()` (no argument): drop leading whitespace. -/
def stripLeft (l : Str) : Str := l.dropWhile isPySpace

/-- Python `str.rstrip()` (no argument): drop trailing whitespace. -/
def stripRight (l : Str) : Str := (l.reverse.dropWhile isPySpace).reverse

/-- Python `str.strip()` (no argument). -/
def pyStrip (l : Str) : Str := stripRight (stripLeft l)

/-- A calendar date; `pd.to_datetime` timestamps produced by
`pd.date_range(freq='D')` are midnight timestamps, so their order is the
lexicographic order on (year, month, day). -/
structure Date where
  year : Nat
  month : Nat
  day : Nat
deriving DecidableEq

/-- Chronological (lexicographic) order on dates, the order used by the
pandas timestamp comparisons in both `get_term` functions. -/
def dateLE (a b : Date) : Prop :=
  a.year < b.year ∨
    (a.year = b.year ∧ (a.month < b.month ∨ (a.month = b.month ∧ a.day ≤ b.day)))

instance (a b : Date) : Decidable (dateLE a b) := by
  unfold dateLE; infer_instance

theorem dateLE_trans {a b c : Date} (h1 : dateLE a b) (h2 : dateLE b c) :
    dateLE a c := by
  unfold dateLE at *
  omega

namespace speech

/-- `codes/speech.py`, `get_term`: walk the `date_ranges` dict in insertion
order and return the code of the first closed interval containing the
date, else `None`. -/
def get_term (date : Date) : Option Nat :=
  if dateLE ⟨2019, 7, 2⟩ date ∧ dateLE date ⟨2024, 7, 1⟩ then some 9
  else if dateLE ⟨2024, 7, 2⟩ date ∧ dateLE date ⟨2029, 7, 1⟩ then some 10
  else none

end speech

namespace voting

/-- `codes/voting.py`, `get_term`: identical interval walk. -/
def get_term (date : Date) : Option Nat :=
  if dateLE ⟨2019, 7, 2⟩ date ∧ dateLE date ⟨2024, 7, 1⟩ then some 9
  else if dateLE ⟨2024, 7, 2⟩ date ∧ dateLE date ⟨2029, 7, 1⟩ then some 10
  else none

end voting

/-- Claim C2: term resolution is total and deterministic.  For every date,
`get_term` returns 9 on [2019-07-02, 2024-07-01], 10 on
[2024-07-02, 2029-07-01], and `none` outside both intervals; the speech
and voting copies of `get_term` compute the same mapping. -/
theorem get_term_total_deterministic (d : Date) :
    speech.get_term d = voting.get_term d
    ∧ (dateLE ⟨2019, 7, 2⟩ d ∧ dateLE d ⟨2024, 7, 1⟩ →
        speech.get_term d = some 9)
    ∧ (dateLE ⟨2024, 7, 2⟩ d ∧ dateLE d ⟨2029, 7, 1⟩ →
        speech.get_term d = some 10)
    ∧ (¬(dateLE ⟨2019, 7, 2⟩ d ∧ dateLE d ⟨2024, 7, 1⟩) →
        ¬(dateLE ⟨2024, 7, 2⟩ d ∧ dateLE d ⟨2029, 7, 1⟩) →
        speech.get_term d = none) := by
  refine ⟨rfl, ?_, ?_, ?_⟩
  · intro h
    simp only [speech.get_term, if_pos h]
  · intro h
    have hnot : ¬(dateLE ⟨2019, 7, 2⟩ d ∧ dateLE d ⟨2024, 7, 1⟩) := by
      rintro ⟨-, h91⟩
      have : dateLE ⟨2024, 7, 2⟩ ⟨2024, 7, 1⟩ := dateLE_trans h.1 h91
      simp [dateLE] at this
    simp only [speech.get_term, if_neg hnot, if_pos h]
  · intro h1 h2
    simp only [speech.get_term, if_neg h1, if_neg h2]

/-- Witness for C2 at concrete dates in each regime. -/
theorem get_term_total_deterministic_witness :
    (dateLE ⟨2019, 7, 2⟩ ⟨2023, 6, 15⟩ ∧ dateLE ⟨2023, 6, 15⟩ ⟨2024, 7, 1⟩)
    ∧ speech.get_term ⟨2023, 6, 15⟩ = some 9
    ∧ speech.get_term ⟨2025, 7, 10⟩ = some 10
    ∧ speech.get_term ⟨2019, 1, 1⟩ = none :=
  ⟨by decide,
   (get_term_total_deterministic ⟨2023, 6, 15⟩).2.1 (by decide),
   (get_term_total_deterministic ⟨2025, 7, 10⟩).2.2.1 (by decide),
   (get_term_total_deterministic ⟨2019, 1, 1⟩).2.2.2 (by decide) (by decide)⟩

/-- Numeric value of a digit string (most significant first). -/
def digitsVal (l : Str) : Nat :=
  l.foldl (fun a c => a * 10 + (c.toNat - 48)) 0

/-- Split a character list on the single character `:` (Python
`str.split(':')` shape used here only to state the `strptime` grammar). -/
def splitColon : Str → List Str
  | [] => [[]]
  | c :: rest =>
    if c == ':' then [] :: splitColon rest
    else
      match splitColon rest with
      | [] => [[c]]
      | h :: t => (c :: h) :: t

namespace speech

/-- One `strptime` field: `%H`, `%M` and `%S` each accept one or two
digits up to a bound.  (`%S` additionally accepts the leap-second values
60 and 61 in the `strptime` regex, but the subsequent `datetime`
constructor rejects them with a `ValueError`, which `calculate_duration`
catches; observably the field parses exactly when its value is within
the bound.) -/
def parseField (l : Str) (maxVal : Nat) : Option Nat :=
  if l ≠ [] ∧ l.length ≤ 2 ∧ l.all Char.isDigit ∧ digitsVal l ≤ maxVal then
    some (digitsVal l)
  else none

/-- `datetime.strptime(s, "%H:%M:%S")` reduced to the second-of-day it
denotes: exactly three colon-separated fields, each one or two digits,
hours at most 23, minutes and seconds at most 59; anything else raises
`ValueError` (modelled as `none`). -/
def parseHMS (l : Str) : Option Nat :=
  match splitColon l with
  | [h, m, s] =>
    match parseField h 23, parseField m 59, parseField s 59 with
    | some hv, some mv, some sv => some (hv * 3600 + mv * 60 + sv)
    | _, _, _ => none
  | _ => none

/-- `codes/speech.py`, `calculate_duration`: drop a fractional-seconds
suffix with `split('.')[0]`, parse both stamps as `%H:%M:%S`, and return
`(end - start).seconds`.  A Python `timedelta`'s `.seconds` field is the
difference taken modulo 86400 (never negative); a parse failure is
caught and yields `None`. -/
def calculate_duration (time_start time_end : Str) : Option Int :=
  match parseHMS (time_start.takeWhile (· != '.')),
        parseHMS (time_end.takeWhile (· != '.')) with
  | some s, some e => some (((e : Int) - (s : Int)) % 86400)
  | _, _ => none

theorem parseField_le {l : Str} {b v : Nat} (h : parseField l b = some v) :
    v ≤ b := by
  unfold parseField at h
  split at h
  · rename_i hc
    exact (Option.some.inj h) ▸ hc.2.2.2
  · exact absurd h (by simp)

theorem parseHMS_lt {l : Str} {v : Nat} (h : parseHMS l = some v) :
    v < 86400 := by
  unfold parseHMS at h
  split at h
  · split at h
    · rename_i hv mv sv hA hB hC
      have h1 := parseField_le hA
      have h2 := parseField_le hB
      have h3 := parseField_le hC
      have hval := Option.some.inj h
      omega
    · exact absurd h (by simp)
  · exact absurd h (by simp)

end speech

/-- Counterexample to claim C4: the pair ("12:00:00", "11:00:00") is
parseable, end minus start is -3600 seconds, but `calculate_duration`
returns 82800 — Python `timedelta.seconds` wraps the difference modulo
86400, so for end earlier than start the result is not end minus start. -/
theorem calculate_duration_counterexample :
    speech.calculate_duration (str "12:00:00") (str "11:00:00") = some 82800
    ∧ ((11 * 3600 : Int) - (12 * 3600 : Int) ≠ 82800) := by
  constructor
  · rfl
  · decide

/-- Claim C4 (amended): for parseable timestamp pairs
`calculate_duration` returns (end - start) modulo 86400 — hence exactly
end minus start whenever end is not earlier than start, and in
particular 1820 on ("12:00:00", "12:30:20") — and whenever either
timestamp is malformed it returns `none` (the `ValueError` is caught,
never propagated). -/
theorem calculate_duration_amended :
    (∀ a b sa sb,
      speech.parseHMS (a.takeWhile (· != '.')) = some sa →
      speech.parseHMS (b.takeWhile (· != '.')) = some sb →
      speech.calculate_duration a b = some (((sb : Int) - (sa : Int)) % 86400)
      ∧ (sa ≤ sb →
          speech.calculate_duration a b = some ((sb : Int) - (sa : Int))))
    ∧ (∀ a b,
        (speech.parseHMS (a.takeWhile (· != '.')) = none
         ∨ speech.parseHMS (b.takeWhile (· != '.')) = none) →
        speech.calculate_duration a b = none)
    ∧ speech.calculate_duration (str "12:00:00") (str "12:30:20") = some 1820 := by
  refine ⟨?_, ?_, rfl⟩
  · intro a b sa sb ha hb
    have hlt := speech.parseHMS_lt hb
    constructor
    · unfold speech.calculate_duration
      rw [ha, hb]
    · intro hle
      unfold speech.calculate_duration
      rw [ha, hb]
      have hmod : ((sb : Int) - (sa : Int)) % 86400 = (sb : Int) - (sa : Int) :=
        Int.emod_eq_of_lt (by omega) (by omega)
      show some (((sb : Int) - (sa : Int)) % 86400) = some ((sb : Int) - (sa : Int))
      rw [hmod]
  · intro a b hab
    unfold speech.calculate_duration
    rcases hab with h | h
    · rw [h]
    · rw [h]
      rcases speech.parseHMS (a.takeWhile (· != '.')) with - | - <;> rfl

/-- Witness for C4 (amended) at the pair from the repository's own test. -/
theorem calculate_duration_amended_witness :
    speech.parseHMS (str "12:00:00") = some 43200
    ∧ speech.calculate_duration (str "12:00:00") (str "12:30:20")
        = some ((45020 : Int) - (43200 : Int)) :=
  ⟨rfl,
   (calculate_duration_amended.1 (str "12:00:00") (str "12:30:20") 43200 45020
      rfl rfl).2 (by decide)⟩

theorem length_stripLeft_le (l : Str) : (stripLeft l).length ≤ l.length :=
  (List.dropWhile_sublist isPySpace).length_le

theorem length_stripRight_le (l : Str) : (stripRight l).length ≤ l.length := by
  unfold stripRight
  rw [List.length_reverse]
  calc (l.reverse.dropWhile isPySpace).length ≤ l.reverse.length :=
        (List.dropWhile_sublist isPySpace).length_le
    _ = l.length := List.length_reverse l

theorem length_pyStrip_le (l : Str) : (pyStrip l).length ≤ l.length :=
  le_trans (length_stripRight_le (stripLeft l)) (length_stripLeft_le l)

theorem length_pyStrip_lt_of_head_space {l : Str} (h : l.get? 0 = some ' ') :
    (pyStrip l).length < l.length := by
  cases l with
  | nil => exact absurd h (by simp)
  | cons c t =>
    have hc : c = ' ' := by simpa using h
    subst hc
    have h1 : stripLeft (' ' :: t) = stripLeft t := by
      simp [stripLeft, List.dropWhile_cons, isPySpace]
    have h2 : (pyStrip (' ' :: t)).length ≤ t.length := by
      unfold pyStrip
      rw [h1]
      exact le_trans (length_stripRight_le (stripLeft t)) (length_stripLeft_le t)
    simpa using Nat.lt_succ_of_le h2

theorem dropWhile_eq_self_of_none (p : Char → Bool) (l : Str)
    (h : ∀ c ∈ l, p c = false) : l.dropWhile p = l := by
  cases l with
  | nil => rfl
  | cons c t =>
    rw [List.dropWhile_cons, h c (List.mem_cons_self c t)]
    simp

theorem pyStrip_eq_self_of_no_space {l : Str}
    (h : ∀ c ∈ l, isPySpace c = false) : pyStrip l = l := by
  have h1 : stripLeft l = l := dropWhile_eq_self_of_none isPySpace l h
  unfold pyStrip stripRight
  rw [h1, dropWhile_eq_self_of_none isPySpace l.reverse
        (fun c hc => h c (List.mem_reverse.mp hc)),
      List.reverse_reverse]

namespace speech

/-- Python `text.rfind(' ', 0, stop)`: the greatest index `i < stop`
(and within the text) holding a space character, else `None` (for -1). -/
def rfindSpace (l : Str) (stop : Nat) : Option Nat :=
  (List.range (min stop l.length)).reverse.find? (fun i => l.get? i == some ' ')

/-- The split position chosen by one loop iteration of
`split_text_into_chunks`: the last space before the threshold, or the
threshold itself when `rfind` returns -1. -/
def splitIndex (text : Str) (maxLength : Nat) : Nat :=
  (rfindSpace text maxLength).getD maxLength

/-- The `while len(text) > max_length` loop of `split_text_into_chunks`,
with explicit fuel standing for the number of remaining iterations the
loop is allowed; `none` models divergence (never reached when the fuel
is the text length and the threshold is positive, see the termination
theorem).  Each iteration appends `text[:split_index]` and continues on
`text[split_index:].strip()`; the final iteration appends the remaining
text. -/
def splitChunksFuel : Nat → Str → Nat → Option (List Str)
  | fuel, text, maxLength =>
    if text.length ≤ maxLength then some [text]
    else
      match fuel with
      | 0 => none
      | Nat.succ f =>
        (splitChunksFuel f (pyStrip (text.drop (splitIndex text maxLength)))
            maxLength).map
          (fun cs => text.take (splitIndex text maxLength) :: cs)

/-- `codes/speech.py`, `split_text_into_chunks` (default threshold 5000). -/
def split_text_into_chunks (text : Str) (maxLength : Nat := 5000) :
    Option (List Str) :=
  splitChunksFuel text.length text maxLength

theorem rfindSpace_some {l : Str} {stop i : Nat}
    (h : rfindSpace l stop = some i) :
    i < stop ∧ i < l.length ∧ l.get? i = some ' ' := by
  unfold rfindSpace at h
  have hmem := List.mem_of_find?_eq_some h
  have hp := List.find?_some h
  rw [List.mem_reverse, List.mem_range] at hmem
  exact ⟨lt_of_lt_of_le hmem (min_le_left _ _),
         lt_of_lt_of_le hmem (min_le_right _ _),
         by simpa using hp⟩

theorem rfindSpace_none_of_no_space {l : Str} (stop : Nat)
    (h : ∀ c ∈ l, isPySpace c = false) : rfindSpace l stop = none := by
  unfold rfindSpace
  rw [List.find?_eq_none]
  intro i hi
  simp only [beq_iff_eq]
  intro hget
  have hsp : (' ' : Char) ∈ l := List.get?_mem hget
  have := h ' ' hsp
  simp [isPySpace] at this

theorem splitIndex_le (text : Str) (m : Nat) : splitIndex text m ≤ m := by
  unfold splitIndex
  cases hrf : rfindSpace text m with
  | none => simp
  | some i => simpa using le_of_lt (rfindSpace_some hrf).1

theorem splitChunksFuel_spec (m : Nat) (hm : 1 ≤ m) :
    ∀ (fuel : Nat) (text : Str), text.length ≤ fuel →
    ∃ cs, splitChunksFuel fuel text m = some cs ∧ cs ≠ []
      ∧ (∀ c ∈ cs, c.length ≤ m)
      ∧ ((∀ ch ∈ text, isPySpace ch = false) → cs.flatten = text) := by
  intro fuel
  induction fuel with
  | zero =>
    intro text hlen
    have htext : text = [] := List.length_eq_zero.mp (Nat.le_zero.mp hlen)
    subst htext
    refine ⟨[[]], ?_, by simp, ?_, by simp⟩
    · simp [splitChunksFuel]
    · intro c hc
      simp only [List.mem_singleton] at hc
      simp [hc]
  | succ f ih =>
    intro text hlen
    by_cases hle : text.length ≤ m
    · refine ⟨[text], ?_, by simp, ?_, by simp⟩
      · simp [splitChunksFuel, hle]
      · intro c hc
        simp only [List.mem_singleton] at hc
        simpa [hc] using hle
    · push_neg at hle
      have hdec : (pyStrip (text.drop (splitIndex text m))).length ≤ f := by
        cases hrf : rfindSpace text m with
        | none =>
          have hsi : splitIndex text m = m := by simp [splitIndex, hrf]
          have h1 := length_pyStrip_le (text.drop (splitIndex text m))
          rw [hsi] at h1 ⊢
          rw [List.length_drop] at h1
          omega
        | some i =>
          obtain ⟨hi_stop, hi_len, hget⟩ := rfindSpace_some hrf
          have hsi : splitIndex text m = i := by simp [splitIndex, hrf]
          rw [hsi]
          by_cases hi0 : i = 0
          · subst hi0
            rw [List.drop_zero]
            have := length_pyStrip_lt_of_head_space hget
            omega
          · have h1 := length_pyStrip_le (text.drop i)
            rw [List.length_drop] at h1
            omega
      obtain ⟨cs, hsome, hne, hlens, hjoin⟩ :=
        ih (pyStrip (text.drop (splitIndex text m))) hdec
      refine ⟨text.take (splitIndex text m) :: cs, ?_, by simp, ?_, ?_⟩
      · show splitChunksFuel (f + 1) text m = _
        rw [splitChunksFuel.eq_def]
        simp only [if_neg (not_le.mpr hle)]
        rw [hsome]
        rfl
      · intro c hc
        rcases List.mem_cons.mp hc with rfl | hc
        · calc (text.take (splitIndex text m)).length
              ≤ splitIndex text m := by
                rw [List.length_take]; exact min_le_left _ _
            _ ≤ m := splitIndex_le text m
        · exact hlens c hc
      · intro hnos
        have hnos2 : ∀ c ∈ text.drop (splitIndex text m), isPySpace c = false :=
          fun c hc => hnos c (List.mem_of_mem_drop hc)
        have hps : pyStrip (text.drop (splitIndex text m))
            = text.drop (splitIndex text m) :=
          pyStrip_eq_self_of_no_space hnos2
        rw [List.flatten_cons, hjoin (by rw [hps]; exact hnos2), hps,
            List.take_append_drop]

end speech

/-- Claim C10: `split_text_into_chunks` is total for every positive
threshold — the loop fuel equal to the text length always suffices
(every iteration strictly shortens the remaining text, including the
edge case where the last space before the threshold is at index 0, where
the `strip()` removes that leading space) — and the chunk list returned
is non-empty. -/
theorem split_text_into_chunks_total (text : Str) (m : Nat) (hm : 1 ≤ m) :
    ∃ cs, speech.split_text_into_chunks text m = some cs ∧ cs ≠ [] := by
  obtain ⟨cs, h1, h2, -, -⟩ :=
    speech.splitChunksFuel_spec m hm text.length text le_rfl
  exact ⟨cs, h1, h2⟩

/-- Witness for C10 at a concrete text and the default threshold. -/
theorem split_text_into_chunks_total_witness :
    1 ≤ 5000
    ∧ ∃ cs, speech.split_text_into_chunks (str "hello world") 5000 = some cs
        ∧ cs ≠ [] :=
  ⟨by decide, split_text_into_chunks_total (str "hello world") 5000 (by decide)⟩

/-- Counterexample to claim C3: on text "a bcccc" with threshold 3 the
chunks are ["a", "bcc", "cc"]; the split at the space drops that space
under plain concatenation, and the hard split inside "bcccc" inserts a
spurious space under the space-join used by `translate_text`, so neither
way of joining reproduces the original text. -/
theorem split_join_counterexample :
    speech.split_text_into_chunks (str "a bcccc") 3
        = some [str "a", str "bcc", str "cc"]
    ∧ List.flatten [str "a", str "bcc", str "cc"] ≠ str "a bcccc"
    ∧ List.intercalate (str " ") [str "a", str "bcc", str "cc"]
        ≠ str "a bcccc" := by
  refine ⟨?_, by decide, by decide⟩
  decide

/-- Claim C3 (amended): for every text and positive threshold the
splitter succeeds and every produced chunk has length at most the
threshold (no chunk ever exceeds it); joining the chunks reproduces the
original text only in restricted cases — in particular, concatenation
reproduces it whenever the text is whitespace-free (the case the
repository's own test exercises). -/
theorem split_text_into_chunks_amended (text : Str) (m : Nat) (hm : 1 ≤ m) :
    ∃ cs, speech.split_text_into_chunks text m = some cs
      ∧ (∀ c ∈ cs, c.length ≤ m)
      ∧ ((∀ ch ∈ text, isPySpace ch = false) → cs.flatten = text) := by
  obtain ⟨cs, h1, -, h3, h4⟩ :=
    speech.splitChunksFuel_spec m hm text.length text le_rfl
  exact ⟨cs, h1, h3, h4⟩

/-- Witness for C3 (amended) on the whitespace-free text from the
repository's test, shrunk to threshold 2. -/
theorem split_text_into_chunks_amended_witness :
    1 ≤ 2
    ∧ ∃ cs, speech.split_text_into_chunks (str "aaaa") 2 = some cs
        ∧ (∀ c ∈ cs, c.length ≤ 2)
        ∧ ((∀ ch ∈ str "aaaa", isPySpace ch = false) → cs.flatten = str "aaaa") :=
  ⟨by decide, split_text_into_chunks_amended (str "aaaa") 2 (by decide)⟩

/-- The Python exception classes raised or caught by the embedded code.
`fileNotFound` is a subclass of `OSError` in Python; `osError` stands
for any other `OSError` (e.g. a permission failure). -/
inductive PyError where
  | fileNotFound
  | parseError
  | attributeError
  | valueError
  | indexError
  | osError
  | connectionError
  | timeoutError
  | langDetectError
deriving DecidableEq

mutual
/-- An `xml.etree.ElementTree` element: tag, attribute dictionary,
`.text`, `.tail`, and the child elements in document order. -/
inductive XTree where
  | node (tag : Str) (attrs : List (Str × Str)) (txt : Option Str)
      (tailTxt : Option Str) (children : XForest)
/-- The children of an element (a separate inductive so that all
traversals are plain mutual structural recursions). -/
inductive XForest where
  | nil
  | cons (t : XTree) (rest : XForest)
end

def XForest.toList : XForest → List XTree
  | .nil => []
  | .cons t rest => t :: rest.toList

def XTree.tag : XTree → Str
  | .node t _ _ _ _ => t

def XTree.txt : XTree → Option Str
  | .node _ _ x _ _ => x

def XTree.tailTxt : XTree → Option Str
  | .node _ _ _ x _ => x

/-- `element.get(key)`: attribute lookup, `None` when absent. -/
def XTree.get : XTree → Str → Option Str
  | .node _ attrs _ _ _, k => List.lookup k attrs

def XTree.childList : XTree → List XTree
  | .node _ _ _ _ c => c.toList

/-- `element.find(tag)`: first direct child with the tag. -/
def XTree.findChild (t : XTree) (tg : Str) : Option XTree :=
  t.childList.find? (fun c => c.tag == tg)

/-- `element.findall(tag)`: all direct children with the tag. -/
def XTree.findChildren (t : XTree) (tg : Str) : List XTree :=
  t.childList.filter (fun c => c.tag == tg)

mutual
/-- All proper descendants of an element in document order (the node
set searched by an ElementTree `.//` path). -/
def XTree.descendants : XTree → List XTree
  | .node _ _ _ _ c => XForest.descList c
def XForest.descList : XForest → List XTree
  | .nil => []
  | .cons t rest => t :: (XTree.descendants t ++ XForest.descList rest)
end

/-- `element.findall(".//" + tag)`. -/
def XTree.findAll (t : XTree) (tg : Str) : List XTree :=
  t.descendants.filter (fun c => c.tag == tg)

/-- `element.find(tag + "[@" + key + "=" + value + "]")`: first direct
child with the tag whose attribute `key` equals `value`. -/
def XTree.findChildAttr (t : XTree) (tg k v : Str) : Option XTree :=
  t.childList.find? (fun c => c.tag == tg && c.get k == some v)

/-- Python truthiness of an optional string (`None` and `""` are falsy). -/
def truthy (o : Option Str) : Bool :=
  match o with
  | some s => !s.isEmpty
  | none => false

/-- Worker for Python `str.split(sep)` with non-empty `sep`: scan left to
right, cutting at each leftmost occurrence of the separator.  The fuel
(one unit per character scanned) makes the recursion structural; fuel
equal to the scanned text length always suffices. -/
def splitSubFuel (sep : Str) : Nat → Str → Str → List Str
  | _, [], acc => [acc.reverse]
  | 0, l, acc => [acc.reverse ++ l]
  | fuel + 1, c :: rest, acc =>
    if sep.isPrefixOf (c :: rest) then
      acc.reverse :: splitSubFuel sep fuel (List.drop (sep.length - 1) rest) []
    else splitSubFuel sep fuel rest (c :: acc)

/-- Python `l.split(sep)` for a non-empty separator. -/
def pySplit (sep l : Str) : List Str := splitSubFuel sep l.length l []

/-- Worker for locating the first occurrence of a non-empty separator
and returning the suffix after it (`text.split(sep, 1)[1]` when the
separator occurs). -/
def findSubAfterFuel (sep : Str) : Nat → Str → Option Str
  | _, [] => none
  | 0, _ => none
  | fuel + 1, c :: rest =>
    if sep.isPrefixOf (c :: rest) then some (List.drop (sep.length - 1) rest)
    else findSubAfterFuel sep fuel rest

/-- The suffix of `l` after the first occurrence of `sep`, or `none`
when `sep` does not occur (`sep in l` is `(findSubAfter sep l).isSome`). -/
def findSubAfter (sep l : Str) : Option Str := findSubAfterFuel sep l.length l

namespace speech

/-- The localized attribution phrases skipped inside EMPHAS runs
(`skip_phrases_pattern`, anchored at the start, case-insensitive, each
followed by a space). -/
def skipPhrases : List Str :=
  [str "on behalf of ", str "en nombre del ", str "au nom du ",
   str "a nome ", str "namens de "]

def lowerStr (l : Str) : Str := l.map Char.toLower

def skipPhraseMatch (s : Str) : Bool :=
  skipPhrases.any (fun p => p.isPrefixOf (lowerStr s))

/-- `note_pattern` (a fully parenthesised run): the regex `^\(.*\)$`
matches a stripped string exactly when it starts with an opening and
ends with a closing parenthesis with no newline in between (`.` does
not cross newlines and the input has been stripped of trailing ones). -/
def noteMatch (s : Str) : Bool :=
  match s with
  | '(' :: rest =>
    !rest.isEmpty && rest.getLast? == some ')'
      && rest.dropLast.all (fun c => c != '\n')
  | _ => false

/-- The `continue` condition in `gather_text`: an EMPHAS child with
truthy text matching either skipped pattern contributes neither its
subtree text nor its tail. -/
def emphasSkip (c : XTree) : Bool :=
  c.tag == str "EMPHAS" &&
    (match c.txt with
     | some s => !s.isEmpty && (skipPhraseMatch (pyStrip s) || noteMatch (pyStrip s))
     | none => false)

/-- The tail contribution of a child in `gather_text`
(`if child.tail: parts.append(child.tail.strip())`). -/
def tailParts (c : XTree) : List Str :=
  match c.tailTxt with
  | some s => if s.isEmpty then [] else [pyStrip s]
  | none => []

mutual
/-- `codes/speech.py`, `gather_text`: recursively gather the element
text, each child subtree and each child tail (skipping matched EMPHAS
runs), then join the non-empty parts with single spaces
(`" ".join(filter(None, parts))`). -/
def gather_text : XTree → Str
  | .node _ _ txt _ children =>
    List.intercalate (str " ")
      (((match txt with
         | some s => if s.isEmpty then [] else [pyStrip s]
         | none => []) ++ gatherParts children).filter (fun p => !p.isEmpty))
def gatherParts : XForest → List Str
  | .nil => []
  | .cons c rest =>
    (if emphasSkip c then [] else gather_text c :: tailParts c) ++ gatherParts rest
end

/-- One row of the combined speech output. -/
structure SpeechRecord where
  date : Str
  timeStart : Str
  timeEnd : Str
  duration : Option Int
  topic : Option Str
  text : Str
  mepid : Str
  speakerName : Str
  party : Str
  speakerType : Str
deriving DecidableEq

/-- `codes/speech.py`, `speech_parse`: gather the PARA texts, strip a
narration prefix up to the first ". – " and leading en-dash/space
characters, read the speaker attributes from the first ORATEUR child
(reordering a "Last | First" display name, raising `ValueError` when
the split does not yield exactly two parts), and compute the duration. -/
def speech_parse (sp : XTree) (date timeStart timeEnd : Str)
    (topic : Option Str) : Except PyError SpeechRecord :=
  let textParts := (sp.findChildren (str "PARA")).filterMap (fun para =>
    let g := gather_text para
    if g.isEmpty then none else some g)
  let text0 := List.intercalate (str " ") textParts
  let text1 := match findSubAfter (str ". – ") text0 with
    | some suffix => pyStrip suffix
    | none => text0
  let text2 := pyStrip (text1.dropWhile (fun c => c == '–' || c == ' '))
  let dur := calculate_duration timeStart timeEnd
  match sp.findChild (str "ORATEUR") with
  | none =>
    .ok ⟨date, timeStart, timeEnd, dur, topic, text2,
         str "NaN", str "NaN", str "NaN", str "NaN"⟩
  | some o =>
    let mepid := (o.get (str "MEPID")).getD (str "NaN")
    let party := (o.get (str "PP")).getD (str "NaN")
    let stype := (o.get (str "SPEAKER_TYPE")).getD (str "NaN")
    let lib := (o.get (str "LIB")).getD (str "NaN")
    if lib != str "NaN" && (findSubAfter (str " | ") lib).isSome then
      match pySplit (str " | ") lib with
      | [lastName, firstName] =>
        .ok ⟨date, timeStart, timeEnd, dur, topic, text2,
             mepid, lastName ++ str " " ++ firstName, party, stype⟩
      | _ => .error .valueError
    else
      .ok ⟨date, timeStart, timeEnd, dur, topic, text2, mepid, lib, party, stype⟩

/-- The per-chapter element walk of `parse_speeches`: a NUMERO element
with truthy VOD-START and VOD-END attributes replaces the running
timing context (unpacking the start around "T" — a `ValueError` when
the split is not a pair — and indexing `[1]` of the end split — an
`IndexError` when there is no "T"); an INTERVENTION with a fully truthy
context yields one record. -/
def processChapter (topic : Option Str) :
    List XTree → Option Str → Option Str → Option Str →
    Except PyError (List SpeechRecord)
  | [], _, _, _ => .ok []
  | elem :: rest, cd, cs, ce =>
    if elem.tag == str "NUMERO" && truthy (elem.get (str "VOD-START"))
        && truthy (elem.get (str "VOD-END")) then
      match pySplit (str "T") ((elem.get (str "VOD-START")).getD []) with
      | [d, t] =>
        match pySplit (str "T") ((elem.get (str "VOD-END")).getD []) with
        | [] => .error .indexError
        | [_] => .error .indexError
        | _ :: te :: _ => processChapter topic rest (some d) (some t) (some te)
      | _ => .error .valueError
    else if elem.tag == str "INTERVENTION" && truthy cd && truthy cs
        && truthy ce then
      match speech_parse elem (cd.getD []) (cs.getD []) (ce.getD []) topic with
      | .ok r => (processChapter topic rest cd cs ce).map (fun rs => r :: rs)
      | .error e => .error e
    else processChapter topic rest cd cs ce

/-- The chapter loop of `parse_speeches` over one parsed file: per
CHAPTER descendant, resolve the topic (text of the first
`TL-CHAP[@VL='EN']` child, or the literal "Unknown Topic" when that
child is absent) and walk the chapter's children. -/
def parseChapters : List XTree → Except PyError (List SpeechRecord)
  | [] => .ok []
  | ch :: rest =>
    let topic : Option Str :=
      match ch.findChildAttr (str "TL-CHAP") (str "VL") (str "EN") with
      | some n => n.txt
      | none => some (str "Unknown Topic")
    match processChapter topic ch.childList none none none with
    | .ok rs => (parseChapters rest).map (fun more => rs ++ more)
    | .error e => .error e

/-- Extraction of one speech file from its parsed tree. -/
def parseSpeechTree (root : XTree) : Except PyError (List SpeechRecord) :=
  parseChapters (root.findAll (str "CHAPTER"))

end speech

/-- The outcome of reading and extracting one file: the read/parse step
may itself fail (`ET.parse` raising `FileNotFoundError`, `ParseError`,
or another `OSError`), and the extraction may raise. -/
def fileOutcome {ρ : Type} (parseFn : XTree → Except PyError (List ρ))
    (input : Except PyError XTree) : Except PyError (List ρ) :=
  match input with
  | .ok tree => parseFn tree
  | .error e => .error e

/-- The shared shape of the `parse_speeches` / `parse_votings` file
loops: process files in order, collecting extracted records; a failure
of a caught class is reported with the file name and the file skipped;
any other exception propagates and aborts the whole batch. -/
def runBatch {ρ : Type} (parseFn : XTree → Except PyError (List ρ))
    (caught : PyError → Bool) :
    List (Str × Except PyError XTree) → Except PyError (List ρ × List Str)
  | [] => .ok ([], [])
  | (name, input) :: rest =>
    match fileOutcome parseFn input with
    | .ok rs =>
      (runBatch parseFn caught rest).map (fun p => (rs ++ p.1, p.2))
    | .error e =>
      if caught e then
        (runBatch parseFn caught rest).map (fun p => (p.1, name :: p.2))
      else .error e

namespace speech

/-- The exception tuple of the `except` clause in `parse_speeches`:
`(FileNotFoundError, ET.ParseError, AttributeError)`. -/
def speechCaught : PyError → Bool
  | .fileNotFound | .parseError | .attributeError => true
  | _ => false

/-- `codes/speech.py`, `parse_speeches`, over the directory's files as a
list of (filename, read/parse outcome) pairs: returns the combined
record list and the names of the skipped files, or the uncaught
exception that aborted the batch. -/
def parse_speeches (files : List (Str × Except PyError XTree)) :
    Except PyError (List SpeechRecord × List Str) :=
  runBatch parseSpeechTree speechCaught files

end speech

namespace voting

/-- One row of the combined voting output. -/
structure VoteRecord where
  date : Str
  description : Str
  vote : Str
  politicalGroup : Str
  mepId : Str
  name : Str
deriving DecidableEq

/-- The flattening of one roll-call result block: every immediate child
is treated as a vote-type block (type = final dot-separated segment of
its tag); per `Result.PoliticalGroup.List` child, per
`PoliticalGroup.Member.Name` entry, one record. -/
def rollCallRecords (sessionDate description : Str) (rc : XTree) :
    List VoteRecord :=
  rc.childList.flatMap (fun result =>
    let voteType := (pySplit (str ".") result.tag).getLastD []
    (result.findChildren (str "Result.PoliticalGroup.List")).flatMap (fun group =>
      let groupId := (group.get (str "Identifier")).getD (str "NaN")
      (group.findChildren (str "PoliticalGroup.Member.Name")).map (fun member =>
        ⟨sessionDate, description, voteType, groupId,
         (member.get (str "PersId")).getD (str "NaN"),
         match member.txt with
         | some s => if s.isEmpty then str "NaN" else s
         | none => str "NaN"⟩)))

/-- The roll-call loop of `parse_single_file`: reading
`roll_call.find('RollCallVote.Description.Text').text` raises
`AttributeError` when the description child is absent (`None.text`);
a falsy text defaults to "No Description". -/
def rollCallLoop (sessionDate : Str) :
    List XTree → Except PyError (List VoteRecord)
  | [] => .ok []
  | rc :: rest =>
    match rc.findChild (str "RollCallVote.Description.Text") with
    | none => .error .attributeError
    | some d =>
      let description := match d.txt with
        | some s => if s.isEmpty then str "No Description" else s
        | none => str "No Description"
      (rollCallLoop sessionDate rest).map
        (fun more => rollCallRecords sessionDate description rc ++ more)

/-- `codes/voting.py`, `parse_single_file` on a parsed tree: read the
session date from the root attributes (default "Unknown Date") and
flatten every `RollCallVote.Result` descendant. -/
def parse_single_file (root : XTree) : Except PyError (List VoteRecord) :=
  rollCallLoop ((root.get (str "Sitting.Date")).getD (str "Unknown Date"))
    (root.findAll (str "RollCallVote.Result"))

/-- The exception tuple of the `except` clauses in `parse_votings`:
`ET.ParseError` and `OSError` (which includes `FileNotFoundError`). -/
def votingCaught : PyError → Bool
  | .parseError | .osError | .fileNotFound => true
  | _ => false

/-- `codes/voting.py`, `parse_votings`, over the directory's files. -/
def parse_votings (files : List (Str × Except PyError XTree)) :
    Except PyError (List VoteRecord × List Str) :=
  runBatch parse_single_file votingCaught files

end voting

/-- The timing marker of the minimal synthetic speech document. -/
def numeroElem : XTree :=
  .node (str "NUMERO")
    [(str "VOD-START", str "2024-01-15T12:00:00"),
     (str "VOD-END", str "2024-01-15T12:05:00")] none none .nil

/-- The speaker bundle of the minimal synthetic speech document. -/
def orateurElem : XTree :=
  .node (str "ORATEUR") [(str "LIB", str "Doe | Jane")] none none .nil

/-- The paragraph of the minimal synthetic speech document. -/
def paraElem : XTree :=
  .node (str "PARA") [] (some (str "Hello world.")) none .nil

/-- The intervention of the minimal synthetic speech document. -/
def interventionElem : XTree :=
  .node (str "INTERVENTION") [] none none
    (.cons orateurElem (.cons paraElem .nil))

/-- The single chapter of the minimal synthetic speech document. -/
def speechChapter : XTree :=
  .node (str "CHAPTER") [] none none
    (.cons numeroElem (.cons interventionElem .nil))

/-- The minimal synthetic speech document of claim C6. -/
def speechDocRoot : XTree :=
  .node (str "CRE") [] none none (.cons speechChapter .nil)

/-- Claim C6: parsing the minimal synthetic speech document yields
exactly one record, with speaker name "Doe Jane" (reordered from
"Doe | Jane"), duration 300 seconds, and text "Hello world."
(the chapter has no English title child, so the topic defaults to
"Unknown Topic"). -/
theorem parse_speeches_minimal_document :
    speech.parseSpeechTree speechDocRoot
      = .ok [⟨str "2024-01-15", str "12:00:00", str "12:05:00", some 300,
               some (str "Unknown Topic"), str "Hello world.", str "NaN",
               str "Doe Jane", str "NaN", str "NaN"⟩] := by
  rfl

/-- The description node of the minimal synthetic vote document. -/
def voteDesc : XTree :=
  .node (str "RollCallVote.Description.Text") [] (some (str "Test Motion"))
    none .nil

/-- The single member entry of the minimal synthetic vote document. -/
def voteMember : XTree :=
  .node (str "PoliticalGroup.Member.Name") [(str "PersId", str "123")]
    (some (str "Jane Doe")) none .nil

/-- The political-group list of the minimal synthetic vote document. -/
def voteGroup : XTree :=
  .node (str "Result.PoliticalGroup.List") [(str "Identifier", str "ECR")]
    none none (.cons voteMember .nil)

/-- The "For" block of the minimal synthetic vote document. -/
def voteForBlock : XTree :=
  .node (str "Result.For") [] none none (.cons voteGroup .nil)

/-- The roll-call result of the minimal synthetic vote document. -/
def voteRollCall : XTree :=
  .node (str "RollCallVote.Result") [] none none
    (.cons voteDesc (.cons voteForBlock .nil))

/-- The minimal synthetic vote document of claim C7. -/
def voteDocRoot : XTree :=
  .node (str "PV.RollCallVoteResults") [(str "Sitting.Date", str "2024-01-15")]
    none none (.cons voteRollCall .nil)

/-- Claim C7: parsing the minimal synthetic vote document yields exactly
one record, with vote type "For" (final segment of the block tag),
description "Test Motion", member id "123" and member name "Jane Doe"
(the description child itself is iterated as a vote-type block "Text"
but contributes no member rows). -/
theorem parse_votings_minimal_document :
    voting.parse_single_file voteDocRoot
      = .ok [⟨str "2024-01-15", str "Test Motion", str "For", str "ECR",
               str "123", str "Jane Doe"⟩] := by
  rfl

/-- A file whose outcome is handled by the batch: either its extraction
succeeds, or it fails with an exception class the batch catches. -/
def batchFileOk {ρ : Type} (parseFn : XTree → Except PyError (List ρ))
    (caught : PyError → Bool) (p : Str × Except PyError XTree) : Bool :=
  match fileOutcome parseFn p.2 with
  | .ok _ => true
  | .error e => caught e

/-- The records a file contributes to the combined output (none when
its extraction failed). -/
def batchRecords {ρ : Type} (parseFn : XTree → Except PyError (List ρ))
    (p : Str × Except PyError XTree) : List ρ :=
  match fileOutcome parseFn p.2 with
  | .ok rs => rs
  | .error _ => []

/-- The name a failing file contributes to the batch's error log. -/
def batchSkipped {ρ : Type} (parseFn : XTree → Except PyError (List ρ))
    (p : Str × Except PyError XTree) : Option Str :=
  match fileOutcome parseFn p.2 with
  | .error _ => some p.1
  | .ok _ => none

theorem runBatch_cons {ρ : Type} (parseFn : XTree → Except PyError (List ρ))
    (caught : PyError → Bool) (name : Str) (input : Except PyError XTree)
    (rest : List (Str × Except PyError XTree)) :
    runBatch parseFn caught ((name, input) :: rest) =
      match fileOutcome parseFn input with
      | .ok rs => (runBatch parseFn caught rest).map
          (fun (p : List ρ × List Str) => (rs ++ p.1, p.2))
      | .error e =>
        if caught e then
          (runBatch parseFn caught rest).map
            (fun (p : List ρ × List Str) => (p.1, name :: p.2))
        else .error e := rfl

theorem runBatch_spec {ρ : Type} (parseFn : XTree → Except PyError (List ρ))
    (caught : PyError → Bool) :
    ∀ files, files.all (batchFileOk parseFn caught) = true →
    runBatch parseFn caught files = .ok
      (files.flatMap (batchRecords parseFn),
       files.filterMap (batchSkipped parseFn)) := by
  intro files
  induction files with
  | nil => intro _; rfl
  | cons hd rest ih =>
    intro hall
    rw [List.all_cons] at hall
    obtain ⟨hhd, hrest⟩ := Bool.and_eq_true_iff.mp hall
    obtain ⟨name, input⟩ := hd
    cases ho : fileOutcome parseFn input with
    | ok rs =>
      rw [runBatch_cons, ho, ih hrest]
      simp only [List.flatMap_cons, List.filterMap_cons, batchRecords,
        batchSkipped, ho, Except.map]
    | error e =>
      have hc : caught e = true := by
        unfold batchFileOk at hhd
        rw [ho] at hhd
        exact hhd
      rw [runBatch_cons, ho, ih hrest]
      simp only [hc, if_true, List.flatMap_cons, List.filterMap_cons,
        batchRecords, batchSkipped, ho, Except.map, List.nil_append]

/-- A vote document whose roll-call result has no description child:
`find` returns `None` and reading `.text` raises `AttributeError`. -/
def voteBadRoot : XTree :=
  .node (str "PV.RollCallVoteResults") [] none none
    (.cons (.node (str "RollCallVote.Result") [] none none .nil) .nil)

/-- Counterexample to claim C9: a votings batch with a well-formed file
followed by a structurally malformed file (its roll-call result lacks
the description node).  `parse_votings` catches only `ET.ParseError`
and `OSError`, so the `AttributeError` raised while extracting the bad
file propagates: the whole batch aborts with the exception instead of
skipping the file and returning the good file's records. -/
theorem parse_votings_abort_counterexample :
    voting.parse_votings
      [(str "PV-9-2024-01-15.xml", .ok voteDocRoot),
       (str "PV-9-2024-01-16.xml", .ok voteBadRoot)]
      = .error .attributeError := by
  rfl

/-- Claim C9 (amended): per-file failures of the caught exception
classes are logged with the filename, the file is skipped, and the
batch continues — in `parse_speeches` these classes are missing-file,
XML-parse and attribute errors, in `parse_votings` XML-parse and OS
errors; a per-file failure of any other class (for example the
attribute error raised by a vote file whose roll-call result lacks its
description node) propagates and aborts the batch. -/
theorem parse_batches_skip_caught_failures
    (sfiles vfiles : List (Str × Except PyError XTree))
    (hs : sfiles.all (batchFileOk speech.parseSpeechTree speech.speechCaught)
        = true)
    (hv : vfiles.all (batchFileOk voting.parse_single_file voting.votingCaught)
        = true) :
    speech.parse_speeches sfiles = .ok
      (sfiles.flatMap (batchRecords speech.parseSpeechTree),
       sfiles.filterMap (batchSkipped speech.parseSpeechTree))
    ∧ voting.parse_votings vfiles = .ok
      (vfiles.flatMap (batchRecords voting.parse_single_file),
       vfiles.filterMap (batchSkipped voting.parse_single_file)) := by
  constructor
  · unfold speech.parse_speeches
    exact runBatch_spec speech.parseSpeechTree speech.speechCaught sfiles hs
  · unfold voting.parse_votings
    exact runBatch_spec voting.parse_single_file voting.votingCaught vfiles hv

/-- Speech batch for the C9 witness: one good file, one missing file. -/
def sfilesW : List (Str × Except PyError XTree) :=
  [(str "CRE-9-2024-01-15.xml", .ok speechDocRoot),
   (str "CRE-9-2024-01-16.xml", .error .fileNotFound)]

/-- Voting batch for the C9 witness: one good file, one unparsable file. -/
def vfilesW : List (Str × Except PyError XTree) :=
  [(str "PV-9-2024-01-15.xml", .ok voteDocRoot),
   (str "PV-9-2024-01-16.xml", .error .parseError)]

/-- Witness for C9 (amended): on concrete batches whose failures are of
the caught classes, both parsers skip the failing file (logging its
name) and keep the good file's records. -/
theorem parse_batches_skip_caught_failures_witness :
    (sfilesW.all (batchFileOk speech.parseSpeechTree speech.speechCaught)
        = true)
    ∧ speech.parse_speeches sfilesW = .ok
        ([⟨str "2024-01-15", str "12:00:00", str "12:05:00", some 300,
           some (str "Unknown Topic"), str "Hello world.", str "NaN",
           str "Doe Jane", str "NaN", str "NaN"⟩],
         [str "CRE-9-2024-01-16.xml"])
    ∧ voting.parse_votings vfilesW = .ok
        ([⟨str "2024-01-15", str "Test Motion", str "For", str "ECR",
           str "123", str "Jane Doe"⟩],
         [str "PV-9-2024-01-16.xml"]) := by
  have h := parse_batches_skip_caught_failures sfilesW vfilesW (by rfl) (by rfl)
  exact ⟨by rfl, h.1, h.2⟩

/-- Decimal digit character. -/
def digitChar (n : Nat) : Char := Char.ofNat (48 + n)

/-- Worker for decimal rendering of a natural number (fuel bounds the
number of digits; `n + 1` units always suffice). -/
def natToStrAux : Nat → Nat → Str
  | 0, _ => []
  | fuel + 1, n =>
    if n < 10 then [digitChar n]
    else natToStrAux fuel (n / 10) ++ [digitChar (n % 10)]

/-- Decimal rendering of a natural number. -/
def natToStr (n : Nat) : Str := natToStrAux (n + 1) n

/-- Zero-padding to two digits, as `strftime` does for `%m` and `%d`. -/
def pad2 (n : Nat) : Str := if n < 10 then '0' :: natToStr n else natToStr n

/-- Zero-padding to four digits, as `strftime` does for `%Y`. -/
def pad4 (n : Nat) : Str :=
  if n < 10 then str "000" ++ natToStr n
  else if n < 100 then str "00" ++ natToStr n
  else if n < 1000 then str "0" ++ natToStr n
  else natToStr n

/-- `date.strftime('%Y-%m-%d')`. -/
def formatDate (d : Date) : Str :=
  pad4 d.year ++ [ '-' ] ++ pad2 d.month ++ [ '-' ] ++ pad2 d.day

/-- The observable outcome of `requests.get(url, timeout=10)`: an HTTP
status code, or a raised `requests.exceptions.RequestException`. -/
inductive HttpOutcome where
  | status (code : Nat)
  | reqError (msg : Str)

/-- One data row of the download log (columns Date, Status, Details). -/
structure LogRow where
  date : Str
  status : Str
  details : Str
deriving DecidableEq

/-- A loaded log file as pandas sees it: its column names and its rows
(the rows of a well-formed log projected onto the three columns). -/
structure LogFrame where
  cols : List Str
  rows : List LogRow
deriving DecidableEq

/-- The empty reinitialized log: just the header. -/
def emptyLogFrame : LogFrame :=
  ⟨[str "Date", str "Status", str "Details"], []⟩

namespace speech

/-- `codes/speech.py`, `initialize_log`: a missing file (`none`) or an
existing file whose frame lacks the Status or Date column yields a
fresh header-only frame; otherwise the loaded frame is kept. -/
def initialize_log (existing : Option LogFrame) : LogFrame :=
  match existing with
  | some f =>
    if f.cols.contains (str "Status") && f.cols.contains (str "Date") then f
    else emptyLogFrame
  | none => emptyLogFrame

/-- `codes/speech.py`, `handle_download` for one date: resolve the term
(logging Failed("Term not found") with no network call when unresolved),
then issue the GET — recorded in the second component — and classify
its outcome into the appended log row. -/
def handle_download (oracle : Str → HttpOutcome) (date : Date)
    (dateStr : Str) : List LogRow × List Str :=
  match get_term date with
  | none => ([⟨dateStr, str "Failed", str "Term not found"⟩], [])
  | some _ =>
    match oracle dateStr with
    | .status code =>
      if code = 200 then ([⟨dateStr, str "Success", str "Downloaded"⟩], [dateStr])
      else if code = 404 then
        ([⟨dateStr, str "Not Found", str "URL not found"⟩], [dateStr])
      else ([⟨dateStr, str "Failed", str "HTTP " ++ natToStr code⟩], [dateStr])
    | .reqError m => ([⟨dateStr, str "Request Error", m⟩], [dateStr])

/-- The date loop of `download_speeches`: the terminal sets are computed
once from the prior log; dates whose formatted string is in either set
are skipped with no network call and no log row. -/
def downloadLoop (oracle : Str → HttpOutcome) (processed notFound : List Str) :
    List Date → List LogRow × List Str
  | [] => ([], [])
  | d :: rest =>
    let ds := formatDate d
    if processed.contains ds || notFound.contains ds then
      downloadLoop oracle processed notFound rest
    else
      let step := handle_download oracle d ds
      let more := downloadLoop oracle processed notFound rest
      (step.1 ++ more.1, step.2 ++ more.2)

/-- `codes/speech.py`, `download_speeches`, reduced to its observable
effects: the log rows appended and the network calls issued (file
writes and the politeness sleep carry no information for the claims).
`dates` stands for `pd.date_range(start, end, freq='D')`. -/
def download_speeches (oracle : Str → HttpOutcome)
    (existing : Option LogFrame) (dates : List Date) :
    List LogRow × List Str :=
  let log := initialize_log existing
  downloadLoop oracle
    ((log.rows.filter (fun r => r.status == str "Success")).map (fun r => r.date))
    ((log.rows.filter (fun r => r.status == str "Not Found")).map (fun r => r.date))
    dates

end speech

namespace voting

/-- `codes/voting.py`, `initialize_log`: identical reinitialization. -/
def initialize_log (existing : Option LogFrame) : LogFrame :=
  match existing with
  | some f =>
    if f.cols.contains (str "Status") && f.cols.contains (str "Date") then f
    else emptyLogFrame
  | none => emptyLogFrame

/-- The `try` block of `download_votings` for one non-skipped date:
resolve the term (Failed("Term not found") with no call when
unresolved), issue the GET and classify, exactly as the speech fetcher
does. -/
def handleVoteDownload (oracle : Str → HttpOutcome) (date : Date)
    (dateStr : Str) : List LogRow × List Str :=
  match get_term date with
  | none => ([⟨dateStr, str "Failed", str "Term not found"⟩], [])
  | some _ =>
    match oracle dateStr with
    | .status code =>
      if code = 200 then ([⟨dateStr, str "Success", str "Downloaded"⟩], [dateStr])
      else if code = 404 then
        ([⟨dateStr, str "Not Found", str "URL not found"⟩], [dateStr])
      else ([⟨dateStr, str "Failed", str "HTTP " ++ natToStr code⟩], [dateStr])
    | .reqError m => ([⟨dateStr, str "Request Error", m⟩], [dateStr])

/-- The date loop of `download_votings`: the terminal sets are rebuilt
from the unchanged `existing_log` frame on every iteration. -/
def downloadVoteLoop (oracle : Str → HttpOutcome) (log : LogFrame) :
    List Date → List LogRow × List Str
  | [] => ([], [])
  | d :: rest =>
    let ds := formatDate d
    if ((log.rows.filter (fun r => r.status == str "Success")).map
          (fun r => r.date)).contains ds
        || ((log.rows.filter (fun r => r.status == str "Not Found")).map
              (fun r => r.date)).contains ds then
      downloadVoteLoop oracle log rest
    else
      let step := handleVoteDownload oracle d ds
      let more := downloadVoteLoop oracle log rest
      (step.1 ++ more.1, step.2 ++ more.2)

/-- `codes/voting.py`, `download_votings`, reduced to its observable
effects (appended rows, network calls). -/
def download_votings (oracle : Str → HttpOutcome)
    (existing : Option LogFrame) (dates : List Date) :
    List LogRow × List Str :=
  downloadVoteLoop oracle (initialize_log existing) dates

end voting

theorem contains_true_of_mem {l : List Str} {a : Str} (h : a ∈ l) :
    l.contains a = true := List.elem_eq_true_of_mem h

theorem mem_status_dates {rows : List LogRow} {s st : Str} :
    s ∈ (rows.filter (fun r => r.status == st)).map (fun r => r.date)
    ↔ ∃ r ∈ rows, r.date = s ∧ r.status = st := by
  simp only [List.mem_map, List.mem_filter, beq_iff_eq]
  constructor
  · rintro ⟨r, ⟨hr, hst⟩, hdate⟩
    exact ⟨r, hr, hdate, hst⟩
  · rintro ⟨r, hr, hdate, hst⟩
    exact ⟨r, ⟨hr, hst⟩, hdate⟩

theorem handle_download_shape (oracle : Str → HttpOutcome) (d : Date)
    (ds : Str) :
    (∀ r ∈ (speech.handle_download oracle d ds).1, r.date = ds)
    ∧ ∀ c ∈ (speech.handle_download oracle d ds).2, c = ds := by
  cases hgt : speech.get_term d with
  | none => simp [speech.handle_download, hgt]
  | some t =>
    cases hor : oracle ds with
    | status n =>
      by_cases h2 : n = 200
      · simp [speech.handle_download, hgt, hor, h2]
      · by_cases h4 : n = 404 <;>
          simp [speech.handle_download, hgt, hor, h2, h4]
    | reqError m => simp [speech.handle_download, hgt, hor]

theorem handleVoteDownload_shape (oracle : Str → HttpOutcome) (d : Date)
    (ds : Str) :
    (∀ r ∈ (voting.handleVoteDownload oracle d ds).1, r.date = ds)
    ∧ ∀ c ∈ (voting.handleVoteDownload oracle d ds).2, c = ds := by
  cases hgt : voting.get_term d with
  | none => simp [voting.handleVoteDownload, hgt]
  | some t =>
    cases hor : oracle ds with
    | status n =>
      by_cases h2 : n = 200
      · simp [voting.handleVoteDownload, hgt, hor, h2]
      · by_cases h4 : n = 404 <;>
          simp [voting.handleVoteDownload, hgt, hor, h2, h4]
    | reqError m => simp [voting.handleVoteDownload, hgt, hor]

theorem downloadLoop_cons (oracle : Str → HttpOutcome)
    (processed notFound : List Str) (d : Date) (rest : List Date) :
    speech.downloadLoop oracle processed notFound (d :: rest) =
      if (processed.contains (formatDate d)
          || notFound.contains (formatDate d)) = true then
        speech.downloadLoop oracle processed notFound rest
      else
        ((speech.handle_download oracle d (formatDate d)).1
           ++ (speech.downloadLoop oracle processed notFound rest).1,
         (speech.handle_download oracle d (formatDate d)).2
           ++ (speech.downloadLoop oracle processed notFound rest).2) := rfl

theorem downloadVoteLoop_cons (oracle : Str → HttpOutcome) (log : LogFrame)
    (d : Date) (rest : List Date) :
    voting.downloadVoteLoop oracle log (d :: rest) =
      if ((((log.rows.filter (fun r => r.status == str "Success")).map
              (fun r => r.date)).contains (formatDate d))
          || (((log.rows.filter (fun r => r.status == str "Not Found")).map
                (fun r => r.date)).contains (formatDate d))) = true then
        voting.downloadVoteLoop oracle log rest
      else
        ((voting.handleVoteDownload oracle d (formatDate d)).1
           ++ (voting.downloadVoteLoop oracle log rest).1,
         (voting.handleVoteDownload oracle d (formatDate d)).2
           ++ (voting.downloadVoteLoop oracle log rest).2) := rfl

theorem downloadLoop_skips_terminal (oracle : Str → HttpOutcome)
    (processed notFound : List Str) (s : Str)
    (hs : s ∈ processed ∨ s ∈ notFound) :
    ∀ dates : List Date,
      s ∉ (speech.downloadLoop oracle processed notFound dates).2
      ∧ ∀ r ∈ (speech.downloadLoop oracle processed notFound dates).1,
          r.date ≠ s := by
  intro dates
  induction dates with
  | nil => exact ⟨by simp [speech.downloadLoop], by simp [speech.downloadLoop]⟩
  | cons d rest ih =>
    rw [downloadLoop_cons]
    by_cases hskip : (processed.contains (formatDate d)
        || notFound.contains (formatDate d)) = true
    · rw [if_pos hskip]
      exact ih
    · rw [if_neg hskip]
      have hne : formatDate d ≠ s := by
        intro heq
        apply hskip
        rw [heq]
        rcases hs with h | h
        · rw [contains_true_of_mem h]
          simp
        · rw [contains_true_of_mem h]
          simp
      have hshape := handle_download_shape oracle d (formatDate d)
      constructor
      · intro hc
        rcases List.mem_append.mp hc with h | h
        · exact hne ((hshape.2 s h).symm ▸ rfl)
        · exact ih.1 h
      · intro r hr
        rcases List.mem_append.mp hr with h | h
        · rw [hshape.1 r h]
          exact hne
        · exact ih.2 r h

theorem downloadVoteLoop_skips_terminal (oracle : Str → HttpOutcome)
    (log : LogFrame) (s : Str)
    (hs : s ∈ (log.rows.filter (fun r => r.status == str "Success")).map
            (fun r => r.date)
        ∨ s ∈ (log.rows.filter (fun r => r.status == str "Not Found")).map
            (fun r => r.date)) :
    ∀ dates : List Date,
      s ∉ (voting.downloadVoteLoop oracle log dates).2
      ∧ ∀ r ∈ (voting.downloadVoteLoop oracle log dates).1, r.date ≠ s := by
  intro dates
  induction dates with
  | nil =>
    exact ⟨by simp [voting.downloadVoteLoop], by simp [voting.downloadVoteLoop]⟩
  | cons d rest ih =>
    rw [downloadVoteLoop_cons]
    by_cases hskip : ((((log.rows.filter (fun r => r.status == str "Success")).map
            (fun r => r.date)).contains (formatDate d))
        || (((log.rows.filter (fun r => r.status == str "Not Found")).map
              (fun r => r.date)).contains (formatDate d))) = true
    · rw [if_pos hskip]
      exact ih
    · rw [if_neg hskip]
      have hne : formatDate d ≠ s := by
        intro heq
        apply hskip
        rw [heq]
        rcases hs with h | h
        · rw [contains_true_of_mem h]
          simp
        · rw [contains_true_of_mem h]
          simp
      have hshape := handleVoteDownload_shape oracle d (formatDate d)
      constructor
      · intro hc
        rcases List.mem_append.mp hc with h | h
        · exact hne ((hshape.2 s h).symm ▸ rfl)
        · exact ih.1 h
      · intro r hr
        rcases List.mem_append.mp hr with h | h
        · rw [hshape.1 r h]
          exact hne
        · exact ih.2 r h

theorem initialize_log_modules_agree (existing : Option LogFrame) :
    voting.initialize_log existing = speech.initialize_log existing := by
  cases existing <;> rfl

/-- Claim C1: idempotent resume.  For every prior log, requested date
list and network behaviour, a date string that already has a Success or
Not Found row in the loaded log receives no network call and no new log
row from either `download_speeches` or `download_votings`; hence a
second run over an identical range with an unmodified log issues zero
additional calls for already-terminal dates. -/
theorem download_skips_terminal_dates (oracle : Str → HttpOutcome)
    (existing : Option LogFrame) (dates : List Date) (s : Str)
    (hterm : ∃ r ∈ (speech.initialize_log existing).rows,
        r.date = s ∧ (r.status = str "Success" ∨ r.status = str "Not Found")) :
    (s ∉ (speech.download_speeches oracle existing dates).2
      ∧ ∀ r ∈ (speech.download_speeches oracle existing dates).1, r.date ≠ s)
    ∧ (s ∉ (voting.download_votings oracle existing dates).2
      ∧ ∀ r ∈ (voting.download_votings oracle existing dates).1, r.date ≠ s) := by
  have hmem :
      s ∈ ((speech.initialize_log existing).rows.filter
            (fun r => r.status == str "Success")).map (fun r => r.date)
      ∨ s ∈ ((speech.initialize_log existing).rows.filter
            (fun r => r.status == str "Not Found")).map (fun r => r.date) := by
    obtain ⟨r, hr, hdate, hst⟩ := hterm
    rcases hst with h | h
    · exact Or.inl (mem_status_dates.mpr ⟨r, hr, hdate, h⟩)
    · exact Or.inr (mem_status_dates.mpr ⟨r, hr, hdate, h⟩)
  constructor
  · exact downloadLoop_skips_terminal oracle _ _ s hmem dates
  · have hv := downloadVoteLoop_skips_terminal oracle
      (speech.initialize_log existing) s hmem dates
    unfold voting.download_votings
    rw [initialize_log_modules_agree]
    exact hv

/-- A network that answers 404 everywhere, for the C1 witness. -/
def oracleNotFound : Str → HttpOutcome := fun _ => .status 404

/-- A prior log holding a Success row for 2024-01-15, for the C1 witness. -/
def logWithSuccess : LogFrame :=
  ⟨[str "Date", str "Status", str "Details"],
   [⟨str "2024-01-15", str "Success", str "Downloaded"⟩]⟩

/-- Witness for C1: over the one-day range 2024-01-15 whose date is
already Successful in the log, both fetchers issue no call and append
no row. -/
theorem download_skips_terminal_dates_witness :
    (∃ r ∈ (speech.initialize_log (some logWithSuccess)).rows,
        r.date = str "2024-01-15"
        ∧ (r.status = str "Success" ∨ r.status = str "Not Found"))
    ∧ ((str "2024-01-15" ∉
          (speech.download_speeches oracleNotFound (some logWithSuccess)
            [⟨2024, 1, 15⟩]).2
        ∧ ∀ r ∈ (speech.download_speeches oracleNotFound (some logWithSuccess)
            [⟨2024, 1, 15⟩]).1, r.date ≠ str "2024-01-15")
      ∧ (str "2024-01-15" ∉
          (voting.download_votings oracleNotFound (some logWithSuccess)
            [⟨2024, 1, 15⟩]).2
        ∧ ∀ r ∈ (voting.download_votings oracleNotFound (some logWithSuccess)
            [⟨2024, 1, 15⟩]).1, r.date ≠ str "2024-01-15")) :=
  ⟨by decide,
   download_skips_terminal_dates oracleNotFound (some logWithSuccess)
     [⟨2024, 1, 15⟩] (str "2024-01-15") (by decide)⟩

/-- Claim C8: a prior log frame lacking the required Status or Date
column does not fail initialization — it is reinitialized to the
header-only frame, exactly as if the log file were absent, and the
download run over it proceeds exactly as a run with a fresh log (its
terminal sets are empty, so every date in range is attempted). -/
theorem initialize_log_missing_columns (f : LogFrame)
    (h : str "Status" ∉ f.cols ∨ str "Date" ∉ f.cols) :
    speech.initialize_log (some f) = emptyLogFrame
    ∧ speech.initialize_log (some f) = speech.initialize_log none
    ∧ ∀ (oracle : Str → HttpOutcome) (dates : List Date),
        speech.download_speeches oracle (some f) dates
          = speech.download_speeches oracle none dates := by
  have hcond : (f.cols.contains (str "Status")
      && f.cols.contains (str "Date")) = false := by
    rcases h with h | h
    · have hc : f.cols.contains (str "Status") = false := by
        cases hc : f.cols.contains (str "Status") with
        | false => rfl
        | true => exact absurd (List.mem_of_elem_eq_true hc) h
      rw [hc]
      rfl
    · have hc : f.cols.contains (str "Date") = false := by
        cases hc : f.cols.contains (str "Date") with
        | false => rfl
        | true => exact absurd (List.mem_of_elem_eq_true hc) h
      rw [hc]
      simp
  have h1 : speech.initialize_log (some f) = emptyLogFrame := by
    show (if (f.cols.contains (str "Status")
        && f.cols.contains (str "Date")) = true then f else emptyLogFrame)
      = emptyLogFrame
    rw [hcond]
    rfl
  refine ⟨h1, by rw [h1]; rfl, ?_⟩
  intro oracle dates
  simp only [speech.download_speeches]
  rw [h1]
  rfl

/-- A log frame with an unrelated column and a stale row, for the C8
witness. -/
def badColsFrame : LogFrame :=
  ⟨[str "Foo"], [⟨str "2024-01-15", str "Success", str "Downloaded"⟩]⟩

/-- Witness for C8: the frame lacking both required columns is
reinitialized and the run over it equals the fresh-log run. -/
theorem initialize_log_missing_columns_witness :
    (str "Status" ∉ badColsFrame.cols ∨ str "Date" ∉ badColsFrame.cols)
    ∧ (speech.initialize_log (some badColsFrame) = emptyLogFrame
      ∧ speech.initialize_log (some badColsFrame) = speech.initialize_log none
      ∧ ∀ (oracle : Str → HttpOutcome) (dates : List Date),
          speech.download_speeches oracle (some badColsFrame) dates
            = speech.download_speeches oracle none dates) :=
  ⟨by decide, initialize_log_missing_columns badColsFrame (by decide)⟩

namespace speech

/-- The transient exception tuple caught by both the retry loop and the
outer handler of `translate_text`:
`(ConnectionError, TimeoutError, ValueError)`. -/
def transientCaught : PyError → Bool
  | .connectionError | .timeoutError | .valueError => true
  | _ => false

/-- The `for attempt in range(3)` retry loop of `translate_chunk`: a
successful provider result is returned at once; a transient failure is
retried (after a backoff sleep, which carries no information here);
after the attempts are exhausted the original chunk is returned
unchanged; a non-transient exception propagates. -/
def translateChunkAttempts (tr : Str → Str → Except PyError Str)
    (chunk src : Str) : Nat → Except PyError Str
  | 0 => .ok chunk
  | n + 1 =>
    match tr chunk src with
    | .ok s => .ok s
    | .error e =>
      if transientCaught e then translateChunkAttempts tr chunk src n
      else .error e

/-- `codes/speech.py`, `translate_chunk` (3 attempts). -/
def translate_chunk (tr : Str → Str → Except PyError Str)
    (chunk src : Str) : Except PyError Str :=
  translateChunkAttempts tr chunk src 3

/-- `codes/speech.py`, `translate_text`, with the language detector and
the translation provider as oracles: empty input passes through with
flag 0; a detected source of "en" returns the text unchanged with flag
1; text longer than 5000 is split, translated chunkwise and rejoined
with single spaces, flag 1; otherwise a single-chunk translation
returns flag 1 exactly when the result differs; transient errors are
caught by the outer handler and yield the original text with flag 0. -/
def translate_text (detect : Str → Except PyError Str)
    (tr : Str → Str → Except PyError Str) (text : Str) :
    Except PyError (Str × Nat) :=
  let body : Except PyError (Str × Nat) :=
    if pyStrip text == [] then .ok (text, 0)
    else
      match detect text with
      | .error e => .error e
      | .ok lang =>
        if lang == str "en" then .ok (text, 1)
        else if 5000 < text.length then
          match ((split_text_into_chunks text 5000).getD [text]).mapM
              (fun c => translate_chunk tr c lang) with
          | .ok ts => .ok (List.intercalate (str " ") ts, 1)
          | .error e => .error e
        else
          match translate_chunk tr text lang with
          | .ok t => if t != text then .ok (t, 1) else .ok (text, 0)
          | .error e => .error e
  match body with
  | .error e => if transientCaught e then .ok (text, 0) else .error e
  | .ok r => .ok r

end speech

/-- A language detector that reports English, for the C5 counterexample. -/
def detectAlwaysEnglish : Str → Except PyError Str := fun _ => .ok (str "en")

/-- A translation provider that echoes its input (never reached by the
C5 counterexample run). -/
def translatorUnused : Str → Str → Except PyError Str := fun c _ => .ok c

/-- Counterexample to claim C5: on input "Hello" whose detected source
language is English, `translate_text` returns the text unchanged but
with flag 1 (true) — the code reads `return text, 1` on the English
path — so the flag is not "true only if the returned text differs",
and English input is not passed through with the flag false. -/
theorem translate_text_flag_counterexample :
    speech.translate_text detectAlwaysEnglish translatorUnused (str "Hello")
        = .ok (str "Hello", 1)
    ∧ (1 : Nat) ≠ 0 :=
  ⟨rfl, by decide⟩

/-- Claim C5 (amended): for non-empty input with a successful detection,
the flag is 1 whenever the detected language is already English (with
the text passed through unchanged), and for short (at most 5000
characters) non-English input with a successful chunk translation the
flag is 1 exactly when the returned text differs from the input. -/
theorem translate_text_flag_amended
    (detect : Str → Except PyError Str) (tr : Str → Str → Except PyError Str)
    (text lang t : Str)
    (hne : (pyStrip text == []) = false) (hdet : detect text = .ok lang) :
    (lang = str "en" → speech.translate_text detect tr text = .ok (text, 1))
    ∧ (lang ≠ str "en" → text.length ≤ 5000 →
        speech.translate_chunk tr text lang = .ok t →
        speech.translate_text detect tr text =
          if t = text then .ok (text, 0) else .ok (t, 1)) := by
  constructor
  · intro hlang
    subst hlang
    simp [speech.translate_text, hne, hdet]
  · intro hlang hlen htr
    have hbeq : (lang == str "en") = false := beq_eq_false_iff_ne.mpr hlang
    have hlen2 : ¬ (5000 < text.length) := not_lt.mpr hlen
    by_cases ht : t = text
    · rw [if_pos ht]
      simp [speech.translate_text, hne, hdet, hbeq, hlen2, htr, ht]
    · rw [if_neg ht]
      simp [speech.translate_text, hne, hdet, hbeq, hlen2, htr, ht]

/-- A language detector that reports French, for the C5 witness. -/
def detectAlwaysFrench : Str → Except PyError Str := fun _ => .ok (str "fr")

/-- A translation provider that answers "Hi", for the C5 witness. -/
def translatorToHi : Str → Str → Except PyError Str := fun _ _ => .ok (str "Hi")

/-- Witness for C5 (amended): the short French input "Salut" translated
to the different text "Hi" comes back with flag 1. -/
theorem translate_text_flag_amended_witness :
    ((pyStrip (str "Salut") == []) = false)
    ∧ detectAlwaysFrench (str "Salut") = .ok (str "fr")
    ∧ speech.translate_text detectAlwaysFrench translatorToHi (str "Salut")
        = .ok (str "Hi", 1) := by
  refine ⟨by decide, rfl, ?_⟩
  have h := (translate_text_flag_amended detectAlwaysFrench translatorToHi
      (str "Salut") (str "fr") (str "Hi") (by decide) rfl).2
      (by decide) (by decide) rfl
  rw [if_neg (by decide)] at h
  exact h
